import Mathlib

/-!
Shallow embedding of `tfconfig-rs` (src/lib.rs): a static-analysis front end
that loads a directory of Terraform configuration files and extracts the
module's `required_version` constraints and `required_providers` entries.

The HCL document grammar is an external collaborator of the program
(`hcl::parse`); we model an already-parsed document as a list of structures
(attributes and blocks), mirroring `hcl::Body`.  Rust's in-place mutation of
`Module` through `&mut` references is modelled by explicit state passing:
each handler takes a `Module` and returns the (possibly partially) updated
`Module` together with an optional `ParseError`, mirroring
`Result<(), ParseError>` plus the mutations already performed.
-/

set_option autoImplicit false

namespace Tfconfig

/-- `ProviderRef` from src/lib.rs: `{ name, alias }`, a pure value type. -/
structure ProviderRef where
  name : String
  «alias» : String
  deriving DecidableEq, Repr

/-- `ProviderRequirement` from src/lib.rs. -/
structure ProviderRequirement where
  source : String
  version_constraints : List String
  configuration_aliases : List ProviderRef
  deriving DecidableEq, Repr

/-- `ProviderRequirement::default()`: all fields empty. -/
def ProviderRequirement.default : ProviderRequirement :=
  { source := "", version_constraints := [], configuration_aliases := [] }

/-- `Module` from src/lib.rs.  `required_providers` is a
`HashMap<String, ProviderRequirement>`; we model it as an association list
with unique keys (lookup finds the unique entry, insertion appends). -/
structure Module where
  path : String
  required_core : List String
  required_providers : List (String × ProviderRequirement)
  deriving DecidableEq, Repr

/-- `Module::new`: empty module bound to a directory path. -/
def Module.new (path : String) : Module :=
  { path := path, required_core := [], required_providers := [] }

/-- The `ParseError` enum from src/lib.rs: its only variant. -/
inductive ParseError where
  | multipleSourcesForProvider
      (name : String) (provider_source : String) (duplicate_source : String)
  deriving DecidableEq, Repr

/-- `hcl::ObjectKey`: the code only ever looks up `Identifier` keys; any
non-identifier key shape is collapsed into `other` (never equal to an
identifier key). -/
inductive ObjectKey where
  | identifier (s : String)
  | other (s : String)
  deriving DecidableEq, Repr

mutual
/-- `hcl::Expression`, at the granularity the program observes: string
literals (whose `Display` form is the quoted text), object literals
(looked into for `source` / `version`), and every other expression shape
collapsed into `raw` carrying its rendered text. -/
inductive Expression where
  | str (s : String)
  | object (kvs : ObjectEntries)
  | raw (s : String)

/-- The entries of an `hcl::Object` literal: an ordered key/value list. -/
inductive ObjectEntries where
  | nil
  | cons (k : ObjectKey) (v : Expression) (rest : ObjectEntries)
end

/-- A structure of an `hcl::Body`: an attribute (key = expression) or a
block (identifier { body }). -/
inductive Structure where
  | attribute (key : String) (expr : Expression)
  | block (ident : String) (body : List Structure)

/-- An `hcl::Body` is an ordered sequence of structures. -/
abbrev Body := List Structure

/-- `body.attributes()`: the attributes of a body, in order. -/
def attributesOf (body : Body) : List (String × Expression) :=
  body.filterMap fun s =>
    match s with
    | .attribute k e => some (k, e)
    | .block _ _ => none

/-- `body.blocks()`: the blocks of a body, in order. -/
def blocksOf (body : Body) : List (String × Body) :=
  body.filterMap fun s =>
    match s with
    | .attribute _ _ => none
    | .block i b => some (i, b)

/-- `str::starts_with`, modelled over the character list. -/
def strStartsWith (s p : String) : Bool :=
  p.data.isPrefixOf s.data

/-- `str::ends_with`, modelled over the character list. -/
def strEndsWith (s p : String) : Bool :=
  p.data.isSuffixOf s.data

/-- `str::replace('"', "")`: remove every double-quote character. -/
def stripQuotes (s : String) : String :=
  String.mk (s.data.filter fun c => c ≠ '\x22')

/-- Rendered form of an object key (`Display`): identifiers render bare. -/
def objectKeyToString (k : ObjectKey) : String :=
  match k with
  | .identifier s => s
  | .other s => s

mutual
/-- `Expression`'s `Display`/`to_string()`: string literals render quoted;
object literals render their entries; other expressions render their text. -/
def exprToString (e : Expression) : String :=
  match e with
  | .str s => "\x22" ++ s ++ "\x22"
  | .raw s => s
  | .object kvs => "\x7b " ++ objectEntriesToString kvs ++ " \x7d"

/-- Rendered form of an object literal's entries, comma-separated. -/
def objectEntriesToString (l : ObjectEntries) : String :=
  match l with
  | .nil => ""
  | .cons k v .nil => objectKeyToString k ++ " = " ++ exprToString v
  | .cons k v rest =>
    objectKeyToString k ++ " = " ++ exprToString v ++ ", " ++
      objectEntriesToString rest
end

/-- `attr.get(&key)` on an `hcl::Object`: the entry with the given key. -/
def objectGet (kvs : ObjectEntries) (k : ObjectKey) : Option Expression :=
  match kvs with
  | .nil => none
  | .cons k' v rest => if k' = k then some v else objectGet rest k

/-- Association-list lookup, modelling `HashMap::get` / `get_mut`. -/
def lookupProvider (l : List (String × ProviderRequirement)) (name : String) :
    Option ProviderRequirement :=
  match l with
  | [] => none
  | (k, v) :: rest => if k = name then some v else lookupProvider rest name

/-- In-place update of the entry with the given key, modelling the mutation
performed through `HashMap::get_mut`. -/
def updateProvider (l : List (String × ProviderRequirement)) (name : String)
    (newv : ProviderRequirement) : List (String × ProviderRequirement) :=
  match l with
  | [] => []
  | (k, v) :: rest =>
    if k = name then (k, newv) :: rest
    else (k, v) :: updateProvider rest name newv

/-- The per-attribute extraction step inside `handle_required_providers_block`:
the `match provider.expr()` statement.  For an object expression it builds a
fresh `ProviderRequirement::default()` and fills in optional `source` and
`version` fields (quote-stripped rendered text; `version` is pushed onto the
fresh, empty constraint list).  Every other expression shape hits the
`_ => continue` arm, modelled as `none`. -/
def extractProviderReq (e : Expression) : Option ProviderRequirement :=
  match e with
  | .object attr =>
    let req := ProviderRequirement.default
    let req :=
      match objectGet attr (.identifier "source") with
      | some v => { req with source := stripQuotes (exprToString v) }
      | none => req
    let req :=
      match objectGet attr (.identifier "version") with
      | some v =>
        { req with
            version_constraints :=
              req.version_constraints ++ [stripQuotes (exprToString v)] }
      | none => req
    some req
  | _ => none

/-- The loop of `handle_required_providers_block` over the body's attributes:
for each provider attribute, extract the requirement (skipping non-object
values), then merge it into `module.required_providers`, returning early with
`MultipleSourcesForProvider` when both the existing and new source are
non-empty and differ. -/
def handleProviderAttrs (attrs : List (String × Expression)) (module : Module) :
    Module × Option ParseError :=
  match attrs with
  | [] => (module, none)
  | (provider_name, e) :: rest =>
    match extractProviderReq e with
    | none => handleProviderAttrs rest module
    | some provider_req =>
      match lookupProvider module.required_providers provider_name with
      | some existing_provider =>
        if provider_req.source ≠ "" ∧ existing_provider.source ≠ "" ∧
            existing_provider.source ≠ provider_req.source then
          (module, some (.multipleSourcesForProvider provider_name
            existing_provider.source provider_req.source))
        else
          handleProviderAttrs rest
            { module with
                required_providers :=
                  updateProvider module.required_providers provider_name
                    { existing_provider with
                        version_constraints :=
                          existing_provider.version_constraints ++
                            provider_req.version_constraints } }
      | none =>
        handleProviderAttrs rest
          { module with
              required_providers :=
                module.required_providers ++ [(provider_name, provider_req)] }

/-- `handle_required_providers_block`. -/
def handle_required_providers_block (body : Body) (module : Module) :
    Module × Option ParseError :=
  handleProviderAttrs (attributesOf body) module

/-- The `required_version` attribute values a terraform block body
contributes to `required_core`, in declaration order, quote-stripped. -/
def requiredVersionsOf (body : Body) : List String :=
  (attributesOf body).filterMap fun kv =>
    if kv.1 = "required_version" then some (stripQuotes (exprToString kv.2))
    else none

/-- The loop of `handle_terraform_block` over the body's nested blocks:
`required_providers` blocks are delegated, anything else is ignored; an
error returns early. -/
def handleInnerBlocks (blocks : List (String × Body)) (module : Module) :
    Module × Option ParseError :=
  match blocks with
  | [] => (module, none)
  | (ident, b) :: rest =>
    if ident = "required_providers" then
      match handle_required_providers_block b module with
      | (m, none) => handleInnerBlocks rest m
      | (m, some e) => (m, some e)
    else handleInnerBlocks rest module

/-- `handle_terraform_block`: first push every `required_version` attribute
value (quote-stripped) onto `required_core`, then process nested blocks. -/
def handle_terraform_block (body : Body) (module : Module) :
    Module × Option ParseError :=
  handleInnerBlocks (blocksOf body)
    { module with required_core := module.required_core ++ requiredVersionsOf body }

/-- The loop of `load_module_from_file` over a file's top-level blocks:
`terraform` blocks are processed, anything else is ignored; an error returns
early. -/
def handleTopBlocks (blocks : List (String × Body)) (module : Module) :
    Module × Option ParseError :=
  match blocks with
  | [] => (module, none)
  | (ident, b) :: rest =>
    if ident = "terraform" then
      match handle_terraform_block b module with
      | (m, none) => handleTopBlocks rest m
      | (m, some e) => (m, some e)
    else handleTopBlocks rest module

/-- `load_module_from_file`: walk the parsed file's top-level blocks into the
given module.  The returned `Module` is the state of the `&mut Module`
argument after the call, whether or not an error was returned. -/
def load_module_from_file (file : Body) (module : Module) :
    Module × Option ParseError :=
  handleTopBlocks (blocksOf file) module

/-! ## File discovery -/

/-- The observable outcome of reading and parsing one file in
`load_module`: `fs::read_to_string` may fail, `hcl::parse` (the external
collaborator) may fail, or the file parses into a body. -/
inductive FileContent where
  | unreadable (msg : String)
  | unparsable (msg : String)
  | parsed (body : Body)

/-- One entry of the directory listing, as `load_module` observes it: the
entry's final path component, whether it is a directory, whether its
extension decodes as text (`OsStr::to_str`), and its contents. -/
structure DirEntry where
  name : String
  isDir : Bool
  extDecodable : Bool
  content : FileContent

/-- `Path::extension()` on a file name: the portion after the final `.`,
except that a name with no `.`, or whose only `.` is leading, has no
extension. -/
def rustExtension (name : String) : Option String :=
  match (name.data.reverse.takeWhile fun c => c ≠ '.') with
  | ext =>
    if (name.data.contains '.') ∧
        ¬ (name.data.head? = some '.' ∧
           ¬ (name.data.tail.contains '.')) then
      some (String.mk ext.reverse)
    else none

/-- `Path::file_stem()` on a file name: the portion before the final `.`,
or the whole name when there is no extension. -/
def rustFileStem (name : String) : String :=
  match rustExtension name with
  | none => name
  | some ext => String.mk (name.data.take (name.data.length - ext.length - 1))

/-- The accumulating loop of `get_files_in_dir`: partition the directory
entries into primary and override files, skipping directories and entries
whose extension is missing, undecodable, or an editor artifact. -/
def getFilesGo (entries : List DirEntry) (primary overrides : List DirEntry) :
    List DirEntry :=
  match entries with
  | [] => primary ++ overrides
  | f :: rest =>
    if f.isDir then getFilesGo rest primary overrides
    else
      match rustExtension f.name with
      | none => getFilesGo rest primary overrides
      | some ext =>
        if ¬ f.extDecodable then getFilesGo rest primary overrides
        else if strStartsWith ext "." ∨ strStartsWith ext "#" ∨
            strEndsWith ext "~" ∨ strEndsWith ext "#" then
          getFilesGo rest primary overrides
        else
          let basename := rustFileStem f.name
          if basename = "override" ∨ strEndsWith basename "_override" then
            getFilesGo rest primary (overrides ++ [f])
          else
            getFilesGo rest (primary ++ [f]) overrides

/-- `get_files_in_dir`: all primary files in enumeration order, then all
override files in enumeration order. -/
def get_files_in_dir (entries : List DirEntry) : List DirEntry :=
  getFilesGo entries [] []

/-! ## Load orchestrator -/

/-- The error type of `load_module`'s `Box<dyn Error>`: a file-read
failure, an `hcl::parse` failure, or this crate's own `ParseError`. -/
inductive LoadError where
  | ioError (msg : String)
  | hclError (msg : String)
  | parse (e : ParseError)
  deriving DecidableEq, Repr

deriving instance DecidableEq for Except

/-- The per-file loop of `load_module`: read each discovered file, parse
it, and fold it into the module; every failure propagates immediately
(`?` operator) and discards the module. -/
def loadFiles (files : List DirEntry) (module : Module) :
    Except LoadError Module :=
  match files with
  | [] => .ok module
  | f :: rest =>
    match f.content with
    | .unreadable msg => .error (.ioError msg)
    | .unparsable msg => .error (.hclError msg)
    | .parsed body =>
      match load_module_from_file body module with
      | (m, none) => loadFiles rest m
      | (_, some e) => .error (.parse e)

/-- `load_module`: create an empty module for the directory, discover its
files, and process them in order.  A directory is modelled as its path plus
its entry listing (in enumeration order). -/
def load_module (path : String) (entries : List DirEntry) :
    Except LoadError Module :=
  loadFiles (get_files_in_dir entries) (Module.new path)

/-! ## Derived characterisations and example inputs -/

/-- The `required_version` values a whole parsed file contributes, in
declaration order: those of each top-level `terraform` block. -/
def fileVersions (body : Body) : List String :=
  (blocksOf body).flatMap fun ib =>
    if ib.1 = "terraform" then requiredVersionsOf ib.2 else []

/-- The `required_version` values contributed by one discovered file. -/
def contentVersions (c : FileContent) : List String :=
  match c with
  | .parsed body => fileVersions body
  | _ => []

/-- Object entries `source = <src> version = <ver>`. -/
def srcVerEntries (src ver : String) : ObjectEntries :=
  .cons (.identifier "source") (.str src)
    (.cons (.identifier "version") (.str ver) .nil)

/-- Spec-side (§4.1): a directory entry survives discovery exactly when it
is not a directory and has a decodable extension that is not an editor
artifact. -/
def keepEntry (f : DirEntry) : Bool :=
  !f.isDir &&
    match rustExtension f.name with
    | none => false
    | some ext =>
      f.extDecodable &&
        !(strStartsWith ext "." || strStartsWith ext "#" ||
          strEndsWith ext "~" || strEndsWith ext "#")

/-- Spec-side (§4.1): an entry is an override file exactly when its stem is
`override` or ends with `_override`. -/
def isOverride (f : DirEntry) : Bool :=
  rustFileStem f.name == "override" || strEndsWith (rustFileStem f.name) "_override"

/-- Spec-side (§4.1) characterisation of discovery: the kept primary
entries in enumeration order, then the kept override entries in
enumeration order. -/
def discoverSpec (entries : List DirEntry) : List DirEntry :=
  entries.filter (fun f => keepEntry f && !isOverride f) ++
    entries.filter (fun f => keepEntry f && isOverride f)

/-- A directory entry holding an already-parsed file body. -/
def mkParsedEntry (name : String) (body : Body) : DirEntry :=
  { name := name, isDir := false, extDecodable := true, content := .parsed body }

/-- A minimal well-formed file: `terraform { required_version = "1.0.0" }`. -/
def exampleGoodFile : Body :=
  [.block "terraform" [.attribute "required_version" (.str "1.0.0")]]

/-- A file whose provider attribute value is a plain string, not an object:
`terraform { required_providers { mycloud = "mycorp/mycloud" } }`. -/
def exampleNonObjectFile : Body :=
  [.block "terraform"
    [.block "required_providers"
      [.attribute "mycloud" (.str "mycorp/mycloud")]]]

/-- A `required_providers` body declaring `mycloud` first with an empty
object (no source) and then with a non-empty source. -/
def exampleEmptyThenSourceBody : Body :=
  [.attribute "mycloud" (.object .nil),
   .attribute "mycloud"
     (.object (.cons (.identifier "source") (.str "mycorp/mycloud") .nil))]

/-- The file of the repository's `test_load_module_from_file_with_multiple_sources`
test: one terraform block with `required_version = "1.0.0"` and two
`mycloud` declarations with differing sources. -/
def exampleConflictFile : Body :=
  [.block "terraform"
    [.attribute "required_version" (.str "1.0.0"),
     .block "required_providers"
      [.attribute "mycloud" (.object (srcVerEntries "mycorp/mycloud1" "~> 1.0")),
       .attribute "mycloud"
         (.object (srcVerEntries "mycorp/mycloud2" "~> 2.0"))]]]

/-- A file declaring one provider with the given source and version:
`terraform { required_providers { <name> = { source = <src> version = <ver> } } }`. -/
def providerFile (name src ver : String) : Body :=
  [.block "terraform"
    [.block "required_providers"
      [.attribute name (.object (srcVerEntries src ver))]]]

/-- A directory entry whose text `hcl::parse` rejects. -/
def badEntry : DirEntry :=
  { name := "b.tf", isDir := false, extDecodable := true,
    content := .unparsable "unexpected token" }

/-- A directory holding one well-formed file and one unparsable file. -/
def exampleBadDir : List DirEntry :=
  [mkParsedEntry "a.tf" exampleGoodFile, badEntry]

/-- A directory of two parsable files declaring `mycloud` with differing
non-empty sources. -/
def exampleConflictDir : List DirEntry :=
  [mkParsedEntry "a.tf" (providerFile "mycloud" "mycorp/mycloud1" "~> 1.0"),
   mkParsedEntry "b.tf" (providerFile "mycloud" "mycorp/mycloud2" "~> 2.0")]

/-- A directory of two copies of the same well-formed file. -/
def exampleDupDir : List DirEntry :=
  [mkParsedEntry "a.tf" exampleGoodFile, mkParsedEntry "b.tf" exampleGoodFile]

/-- Whether a file's contents were read and parsed successfully. -/
def FileContent.isParsed (c : FileContent) : Bool :=
  match c with
  | .parsed _ => true
  | _ => false

/-- Every provider requirement stored in the module has an empty
`configuration_aliases` sequence. -/
def AliasFree (m : Module) : Prop :=
  ∀ kv ∈ m.required_providers, kv.2.configuration_aliases = []

/-! ## Helper lemmas -/

/-- A successful association-list lookup finds a pair of the list keyed by
the looked-up name. -/
theorem lookupProvider_mem {l : List (String × ProviderRequirement)}
    {name : String} {v : ProviderRequirement}
    (h : lookupProvider l name = some v) : (name, v) ∈ l := by
  induction l with
  | nil => simp [lookupProvider] at h
  | cons kv rest ih =>
    obtain ⟨k, w⟩ := kv
    by_cases hk : k = name
    · subst hk
      simp [lookupProvider] at h
      simp [h]
    · simp [lookupProvider, hk] at h
      exact List.mem_cons_of_mem _ (ih h)

/-- Every pair of an updated association list is either a pair of the
original list or carries the new value. -/
theorem updateProvider_mem {l : List (String × ProviderRequirement)}
    {name : String} {w : ProviderRequirement} {p : String × ProviderRequirement}
    (h : p ∈ updateProvider l name w) : p ∈ l ∨ p.2 = w := by
  induction l with
  | nil => simp [updateProvider] at h
  | cons kv rest ih =>
    obtain ⟨k, v⟩ := kv
    by_cases hk : k = name
    · simp [updateProvider, hk] at h
      rcases h with h | h
      · right; simp [h]
      · left; exact List.mem_cons_of_mem _ h
    · simp [updateProvider, hk] at h
      rcases h with h | h
      · left; simp [h]
      · rcases ih h with h' | h'
        · left; exact List.mem_cons_of_mem _ h'
        · right; exact h'

/-- Updating the entry a lookup found makes subsequent lookups of that name
return the new value. -/
theorem lookupProvider_update {l : List (String × ProviderRequirement)}
    {name : String} {v w : ProviderRequirement}
    (h : lookupProvider l name = some v) :
    lookupProvider (updateProvider l name w) name = some w := by
  induction l with
  | nil => simp [lookupProvider] at h
  | cons kv rest ih =>
    obtain ⟨k, u⟩ := kv
    by_cases hk : k = name
    · simp [updateProvider, lookupProvider, hk]
    · simp [lookupProvider, hk] at h
      simp [updateProvider, lookupProvider, hk]
      exact ih h

/-- Processing provider attributes never touches `required_core` or
`path`: only `required_providers` is mutated. -/
theorem handleProviderAttrs_frame (attrs : List (String × Expression)) (m : Module) :
    ((handleProviderAttrs attrs m).1).required_core = m.required_core ∧
    ((handleProviderAttrs attrs m).1).path = m.path := by
  induction attrs generalizing m with
  | nil => simp [handleProviderAttrs]
  | cons kv rest ih =>
    obtain ⟨name, e⟩ := kv
    simp only [handleProviderAttrs]
    cases hE : extractProviderReq e with
    | none => exact ih m
    | some req =>
      cases hL : lookupProvider m.required_providers name with
      | none => exact ih _
      | some existing =>
        dsimp only
        split
        · exact ⟨rfl, rfl⟩
        · exact ih _

/-- `handle_required_providers_block` never touches `required_core` or
`path`. -/
theorem handle_required_providers_block_frame (body : Body) (m : Module) :
    ((handle_required_providers_block body m).1).required_core = m.required_core ∧
    ((handle_required_providers_block body m).1).path = m.path :=
  handleProviderAttrs_frame (attributesOf body) m

/-- The nested-block loop of a terraform block never touches
`required_core` or `path`. -/
theorem handleInnerBlocks_frame (blocks : List (String × Body)) (m : Module) :
    ((handleInnerBlocks blocks m).1).required_core = m.required_core ∧
    ((handleInnerBlocks blocks m).1).path = m.path := by
  induction blocks generalizing m with
  | nil => simp [handleInnerBlocks]
  | cons ib rest ih =>
    obtain ⟨ident, b⟩ := ib
    simp only [handleInnerBlocks]
    split
    · cases hB : handle_required_providers_block b m with
      | mk m' err =>
        have hfr := handle_required_providers_block_frame b m
        rw [hB] at hfr
        cases err with
        | none =>
          simp only
          obtain ⟨h1, h2⟩ := ih m'
          exact ⟨h1.trans hfr.1, h2.trans hfr.2⟩
        | some e => simpa using hfr
    · exact ih m

/-- `handle_terraform_block` appends exactly the block's
`required_version` values to `required_core` and preserves `path`. -/
theorem handle_terraform_block_core (body : Body) (m : Module) :
    ((handle_terraform_block body m).1).required_core =
      m.required_core ++ requiredVersionsOf body ∧
    ((handle_terraform_block body m).1).path = m.path :=
  handleInnerBlocks_frame (blocksOf body) _

/-- When the top-level block loop succeeds, `required_core` grows by exactly
the `required_version` values of the terraform blocks processed, in order,
and `path` is unchanged. -/
theorem handleTopBlocks_core (blocks : List (String × Body)) (m m' : Module)
    (h : handleTopBlocks blocks m = (m', none)) :
    m'.required_core = m.required_core ++
      (blocks.flatMap fun ib =>
        if ib.1 = "terraform" then requiredVersionsOf ib.2 else []) ∧
    m'.path = m.path := by
  induction blocks generalizing m with
  | nil =>
    simp [handleTopBlocks] at h
    simp [h.symm]
  | cons ib rest ih =>
    obtain ⟨ident, b⟩ := ib
    rw [handleTopBlocks] at h
    by_cases hid : ident = "terraform"
    · rw [if_pos hid] at h
      cases hB : handle_terraform_block b m with
      | mk m1 err =>
        rw [hB] at h
        have hfr := handle_terraform_block_core b m
        rw [hB] at hfr
        cases err with
        | none =>
          simp only at h
          obtain ⟨h1, h2⟩ := ih m1 h
          refine ⟨?_, h2.trans hfr.2⟩
          rw [h1, hfr.1]
          simp [hid, List.append_assoc]
        | some e => simp at h
    · rw [if_neg hid] at h
      obtain ⟨h1, h2⟩ := ih m h
      refine ⟨?_, h2⟩
      rw [h1]
      simp [hid]

/-- When `load_module_from_file` succeeds, it appends exactly the file's
`required_version` values to `required_core` and preserves `path`. -/
theorem load_module_from_file_core (file : Body) (m m' : Module)
    (h : load_module_from_file file m = (m', none)) :
    m'.required_core = m.required_core ++ fileVersions file ∧ m'.path = m.path :=
  handleTopBlocks_core (blocksOf file) m m' h

/-- When the per-file loop succeeds, the resulting `required_core` is the
input one followed by every processed file's `required_version` values, in
file order, and `path` is unchanged. -/
theorem loadFiles_core (files : List DirEntry) (m m' : Module)
    (h : loadFiles files m = .ok m') :
    m'.required_core = m.required_core ++
      (files.flatMap fun f => contentVersions f.content) ∧
    m'.path = m.path := by
  induction files generalizing m with
  | nil =>
    simp [loadFiles] at h
    simp [h.symm]
  | cons f rest ih =>
    obtain ⟨fname, fdir, fdec, fc⟩ := f
    cases fc with
    | unreadable msg => simp [loadFiles] at h
    | unparsable msg => simp [loadFiles] at h
    | parsed body =>
      simp only [loadFiles] at h
      cases hB : load_module_from_file body m with
      | mk m1 err =>
        rw [hB] at h
        cases err with
        | none =>
          simp only at h
          obtain ⟨h1, h2⟩ := ih m1 h
          have hfl := load_module_from_file_core body m m1 hB
          refine ⟨?_, h2.trans hfl.2⟩
          rw [h1, hfl.1]
          simp [contentVersions, List.append_assoc]
        | some e => simp at h

/-- Splitting the per-file loop along a list append. -/
theorem loadFiles_append (xs ys : List DirEntry) (m : Module) :
    loadFiles (xs ++ ys) m =
      match loadFiles xs m with
      | .ok m' => loadFiles ys m'
      | .error e => .error e := by
  induction xs generalizing m with
  | nil => simp [loadFiles]
  | cons f rest ih =>
    obtain ⟨fname, fdir, fdec, fc⟩ := f
    cases fc with
    | unreadable msg => simp [loadFiles]
    | unparsable msg => simp [loadFiles]
    | parsed body =>
      rw [List.cons_append]
      simp only [loadFiles]
      cases hB : load_module_from_file body m with
      | mk m1 err =>
        cases err with
        | none => exact ih m1
        | some e => rfl

/-- A successfully extracted provider requirement has no configuration
aliases and at most one version constraint (the object form carries at most
one `version` expression per occurrence). -/
theorem extractProviderReq_shape {e : Expression} {req : ProviderRequirement}
    (h : extractProviderReq e = some req) :
    req.configuration_aliases = [] ∧ req.version_constraints.length ≤ 1 := by
  cases e with
  | str s => simp [extractProviderReq] at h
  | raw s => simp [extractProviderReq] at h
  | object kvs =>
    simp only [extractProviderReq] at h
    cases hs : objectGet kvs (.identifier "source") with
    | none =>
      rw [hs] at h
      cases hv : objectGet kvs (.identifier "version") with
      | none =>
        rw [hv] at h
        simp at h
        simp [← h, ProviderRequirement.default]
      | some v =>
        rw [hv] at h
        simp at h
        simp [← h, ProviderRequirement.default]
    | some v =>
      rw [hs] at h
      cases hv : objectGet kvs (.identifier "version") with
      | none =>
        rw [hv] at h
        simp at h
        simp [← h, ProviderRequirement.default]
      | some v' =>
        rw [hv] at h
        simp at h
        simp [← h, ProviderRequirement.default]

/-- The provider-attribute loop preserves alias-freeness of the module. -/
theorem handleProviderAttrs_aliasFree (attrs : List (String × Expression))
    (m : Module) (hm : AliasFree m) :
    AliasFree ((handleProviderAttrs attrs m).1) := by
  induction attrs generalizing m with
  | nil => simpa [handleProviderAttrs] using hm
  | cons kv rest ih =>
    obtain ⟨name, e⟩ := kv
    simp only [handleProviderAttrs]
    cases hE : extractProviderReq e with
    | none => exact ih m hm
    | some req =>
      cases hL : lookupProvider m.required_providers name with
      | none =>
        refine ih _ ?_
        intro p hp
        rcases List.mem_append.1 hp with hp | hp
        · exact hm p hp
        · simp at hp
          rw [hp]
          exact (extractProviderReq_shape hE).1
      | some existing =>
        dsimp only
        split
        · exact hm
        · refine ih _ ?_
          intro p hp
          rcases updateProvider_mem hp with hp | hp
          · exact hm p hp
          · rw [hp]
            exact hm _ (lookupProvider_mem hL)

/-- The terraform-block handlers preserve alias-freeness. -/
theorem handleInnerBlocks_aliasFree (blocks : List (String × Body))
    (m : Module) (hm : AliasFree m) :
    AliasFree ((handleInnerBlocks blocks m).1) := by
  induction blocks generalizing m with
  | nil => simpa [handleInnerBlocks] using hm
  | cons ib rest ih =>
    obtain ⟨ident, b⟩ := ib
    simp only [handleInnerBlocks]
    split
    · cases hB : handle_required_providers_block b m with
      | mk m' err =>
        have hal : AliasFree m' := by
          have := handleProviderAttrs_aliasFree (attributesOf b) m hm
          rwa [show handleProviderAttrs (attributesOf b) m =
            handle_required_providers_block b m from rfl, hB] at this
        cases err with
        | none => exact ih m' hal
        | some e => exact hal
    · exact ih m hm

/-- `load_module_from_file` preserves alias-freeness. -/
theorem handleTopBlocks_aliasFree (blocks : List (String × Body))
    (m : Module) (hm : AliasFree m) :
    AliasFree ((handleTopBlocks blocks m).1) := by
  induction blocks generalizing m with
  | nil => simpa [handleTopBlocks] using hm
  | cons ib rest ih =>
    obtain ⟨ident, b⟩ := ib
    simp only [handleTopBlocks]
    split
    · cases hB : handle_terraform_block b m with
      | mk m' err =>
        have hal : AliasFree m' := by
          have hm2 : AliasFree
              { m with required_core := m.required_core ++ requiredVersionsOf b } := hm
          have := handleInnerBlocks_aliasFree (blocksOf b) _ hm2
          rwa [show handleInnerBlocks (blocksOf b)
            { m with required_core := m.required_core ++ requiredVersionsOf b } =
            handle_terraform_block b m from rfl, hB] at this
        cases err with
        | none => exact ih m' hal
        | some e => exact hal
    · exact ih m hm

/-- A successful per-file load loop preserves alias-freeness. -/
theorem loadFiles_aliasFree (files : List DirEntry) (m m' : Module)
    (h : loadFiles files m = .ok m') (hm : AliasFree m) : AliasFree m' := by
  induction files generalizing m with
  | nil =>
    simp [loadFiles] at h
    rwa [← h]
  | cons f rest ih =>
    obtain ⟨fname, fdir, fdec, fc⟩ := f
    cases fc with
    | unreadable msg => simp [loadFiles] at h
    | unparsable msg => simp [loadFiles] at h
    | parsed body =>
      simp only [loadFiles] at h
      cases hB : load_module_from_file body m with
      | mk m1 err =>
        rw [hB] at h
        cases err with
        | none =>
          simp only at h
          refine ih m1 h ?_
          have := handleTopBlocks_aliasFree (blocksOf body) m hm
          rwa [show handleTopBlocks (blocksOf body) m =
            load_module_from_file body m from rfl, hB] at this
        | some e => simp at h

/-- A file that failed to read or parse anywhere in the list makes the
per-file loop fail. -/
theorem loadFiles_error_of_bad (files : List DirEntry) (m : Module)
    (h : ∃ f ∈ files, f.content.isParsed = false) :
    ∃ e, loadFiles files m = .error e := by
  induction files generalizing m with
  | nil => simp at h
  | cons f rest ih =>
    obtain ⟨fname, fdir, fdec, fc⟩ := f
    cases fc with
    | unreadable msg => exact ⟨.ioError msg, by simp [loadFiles]⟩
    | unparsable msg => exact ⟨.hclError msg, by simp [loadFiles]⟩
    | parsed body =>
      have hrest : ∃ f ∈ rest, f.content.isParsed = false := by
        rcases h with ⟨f', hf', hbad⟩
        rcases List.mem_cons.1 hf' with hf' | hf'
        · rw [hf'] at hbad
          simp [FileContent.isParsed] at hbad
        · exact ⟨f', hf', hbad⟩
      simp only [loadFiles]
      cases hB : load_module_from_file body m with
      | mk m1 err =>
        cases err with
        | none => exact ih m1 hrest
        | some e => exact ⟨.parse e, rfl⟩

/-- Unrolling the discovery loop: the accumulated result is the premade
accumulators followed by the kept primary entries and the kept override
entries in enumeration order. -/
theorem getFilesGo_spec (entries p o : List DirEntry) :
    getFilesGo entries p o =
      (p ++ entries.filter fun f => keepEntry f && !isOverride f) ++
        (o ++ entries.filter fun f => keepEntry f && isOverride f) := by
  induction entries generalizing p o with
  | nil => simp [getFilesGo]
  | cons f rest ih =>
    by_cases hd : f.isDir
    · have hk : keepEntry f = false := by simp [keepEntry, hd]
      simp [getFilesGo, hd, hk, List.filter_cons, ih]
    · cases hx : rustExtension f.name with
      | none =>
        have hk : keepEntry f = false := by simp [keepEntry, hd, hx]
        simp [getFilesGo, hd, hx, hk, List.filter_cons, ih]
      | some ext =>
        by_cases hdec : f.extDecodable
        · by_cases hart : strStartsWith ext "." ∨ strStartsWith ext "#" ∨
              strEndsWith ext "~" ∨ strEndsWith ext "#"
          · have hk : keepEntry f = false := by
              simp only [keepEntry, hx]
              rcases hart with h | h | h | h <;> simp [h, hd, hdec]
            simp [getFilesGo, hd, hx, hdec, hart, hk, List.filter_cons, ih]
          · have hk : keepEntry f = true := by
              push_neg at hart
              simp [keepEntry, hd, hx, hdec, hart.1, hart.2.1, hart.2.2.1,
                hart.2.2.2]
            by_cases hov : rustFileStem f.name = "override" ∨
                strEndsWith (rustFileStem f.name) "_override"
            · have ho : isOverride f = true := by
                rcases hov with h | h <;> simp [isOverride, h]
              simp [getFilesGo, hd, hx, hdec, hart, hov, hk, ho,
                List.filter_cons, ih]
            · push_neg at hov
              have ho : isOverride f = false := by
                simp [isOverride, hov.1, hov.2]
              simp [getFilesGo, hd, hx, hdec, hart, hov.1, hov.2, hk, ho,
                List.filter_cons, ih]
        · have hk : keepEntry f = false := by simp [keepEntry, hd, hx, hdec]
          simp [getFilesGo, hd, hx, hdec, hk, List.filter_cons, ih]

/-- A body with no `required_version` attribute contributes no versions. -/
theorem requiredVersionsOf_eq_nil (body : Body)
    (h : ∀ kv ∈ attributesOf body, kv.1 ≠ "required_version") :
    requiredVersionsOf body = [] := by
  rw [requiredVersionsOf, List.filterMap_eq_nil_iff]
  intro kv hkv
  simp [h kv hkv]

/-- The top-level loop ignores a file whose blocks are all non-`terraform`. -/
theorem handleTopBlocks_skip (blocks : List (String × Body)) (m : Module)
    (h : ∀ ib ∈ blocks, ib.1 ≠ "terraform") :
    handleTopBlocks blocks m = (m, none) := by
  induction blocks with
  | nil => rfl
  | cons ib rest ih =>
    obtain ⟨ident, b⟩ := ib
    rw [handleTopBlocks]
    rw [if_neg (h (ident, b) (by simp))]
    exact ih fun ib hib => h ib (List.mem_cons_of_mem _ hib)

/-- The inner-block loop ignores blocks that are all
non-`required_providers`. -/
theorem handleInnerBlocks_skip (blocks : List (String × Body)) (m : Module)
    (h : ∀ ib ∈ blocks, ib.1 ≠ "required_providers") :
    handleInnerBlocks blocks m = (m, none) := by
  induction blocks with
  | nil => rfl
  | cons ib rest ih =>
    obtain ⟨ident, b⟩ := ib
    rw [handleInnerBlocks]
    rw [if_neg (h (ident, b) (by simp))]
    exact ih fun ib hib => h ib (List.mem_cons_of_mem _ hib)

/-- Stripping quotes from a quoted string equals stripping quotes from the
bare string: the surrounding quote characters are removed. -/
theorem stripQuotes_quoted (s : String) :
    stripQuotes ("\x22" ++ s ++ "\x22") = stripQuotes s := by
  have h : ("\x22" ++ s ++ "\x22").data = '\x22' :: (s.data ++ ['\x22']) := by
    simp [String.data_append]
  simp [stripQuotes, h, List.filter_append]

/-! ## Claim theorems -/

/-- C1, counterexample: a provider attribute whose value is a plain string
(`mycloud = "mycorp/mycloud"`) does NOT make extraction fail: processing the
file yields no error at all (and leaves the module unchanged), contradicting
the claimed structural error naming the attribute key and file path. -/
theorem c1_counterexample :
    load_module_from_file exampleNonObjectFile (Module.new "") =
      (Module.new "", none) := by
  decide

/-- C1, amended: an attribute inside a `required_providers` block whose value
expression is not an object literal is silently skipped: it produces no
error and contributes nothing to the module (the loop continues with the
remaining attributes unchanged). -/
theorem c1_nonobject_skipped (name : String) (e : Expression)
    (rest : List (String × Expression)) (m : Module)
    (h : ∀ kvs, e ≠ Expression.object kvs) :
    handleProviderAttrs ((name, e) :: rest) m = handleProviderAttrs rest m := by
  cases e with
  | object kvs => exact absurd rfl (h kvs)
  | str s => simp [handleProviderAttrs, extractProviderReq]
  | raw s => simp [handleProviderAttrs, extractProviderReq]

/-- C1, witness: the amended theorem applied to a concrete string-valued
provider attribute. -/
theorem c1_nonobject_skipped_witness :
    (∀ kvs, Expression.str "mycorp/mycloud" ≠ Expression.object kvs) ∧
    handleProviderAttrs [("mycloud", Expression.str "mycorp/mycloud")]
        (Module.new "") =
      handleProviderAttrs [] (Module.new "") :=
  ⟨(fun _ h => nomatch h),
   c1_nonobject_skipped "mycloud" (Expression.str "mycorp/mycloud") []
     (Module.new "") (fun _ h => nomatch h)⟩

/-- C3, counterexample: declaring `mycloud` first with an empty object (so
the stored source is `""`) and then with source `"mycorp/mycloud"` leaves
the stored source EMPTY — the new non-empty source is not adopted,
contradicting the claimed "first non-empty source wins" policy. -/
theorem c3_counterexample :
    lookupProvider
        ((handle_required_providers_block exampleEmptyThenSourceBody
          (Module.new "")).1).required_providers "mycloud" =
      some { source := "", version_constraints := [],
             configuration_aliases := [] } ∧
    (handle_required_providers_block exampleEmptyThenSourceBody
      (Module.new "")).2 = none := by
  constructor <;> decide

/-- C3, amended: when merging into an existing entry whose `source` is the
empty string, the newly extracted source (empty or not) is never adopted:
the entry keeps its existing empty source, only the new version constraints
are appended, and no error is raised. -/
theorem c3_existing_source_kept (name : String) (e : Expression)
    (req existing : ProviderRequirement) (m : Module)
    (hL : lookupProvider m.required_providers name = some existing)
    (hE : extractProviderReq e = some req)
    (hsrc : existing.source = "") :
    lookupProvider ((handleProviderAttrs [(name, e)] m).1).required_providers
        name =
      some { source := existing.source,
             version_constraints :=
               existing.version_constraints ++ req.version_constraints,
             configuration_aliases := existing.configuration_aliases } ∧
    (handleProviderAttrs [(name, e)] m).2 = none := by
  simp only [handleProviderAttrs, hE, hL]
  have hcond : ¬(req.source ≠ "" ∧ existing.source ≠ "" ∧
      existing.source ≠ req.source) := by
    simp [hsrc]
  rw [if_neg hcond]
  simp only [handleProviderAttrs]
  exact ⟨lookupProvider_update hL, by trivial⟩

/-- C3, witness: the amended theorem applied to a module already holding
`p` with an empty source and a new declaration of `p` with source `x`. -/
theorem c3_existing_source_kept_witness :
    lookupProvider
        ({ path := "", required_core := [],
           required_providers :=
             [("p", ProviderRequirement.default)] } : Module).required_providers
        "p" = some ProviderRequirement.default ∧
    extractProviderReq
        (.object (.cons (.identifier "source") (.str "x") .nil)) =
      some { source := "x", version_constraints := [],
             configuration_aliases := [] } ∧
    ProviderRequirement.default.source = "" ∧
    (lookupProvider
        ((handleProviderAttrs
          [("p", Expression.object (.cons (.identifier "source") (.str "x") .nil))]
          { path := "", required_core := [],
            required_providers :=
              [("p", ProviderRequirement.default)] }).1).required_providers
        "p" =
      some { source := ProviderRequirement.default.source,
             version_constraints :=
               ProviderRequirement.default.version_constraints ++
                 ({ source := "x", version_constraints := [],
                    configuration_aliases := [] } :
                   ProviderRequirement).version_constraints,
             configuration_aliases :=
               ProviderRequirement.default.configuration_aliases } ∧
    (handleProviderAttrs
        [("p", Expression.object (.cons (.identifier "source") (.str "x") .nil))]
        { path := "", required_core := [],
          required_providers := [("p", ProviderRequirement.default)] }).2 =
      none) :=
  ⟨by decide, by decide, by decide,
   c3_existing_source_kept "p"
     (Expression.object (.cons (.identifier "source") (.str "x") .nil))
     { source := "x", version_constraints := [], configuration_aliases := [] }
     ProviderRequirement.default
     { path := "", required_core := [],
       required_providers := [("p", ProviderRequirement.default)] }
     (by decide) (by decide) (by decide)⟩

/-- C9 (confirmed): `load_module_from_file` is not atomic on error — on the
repository's own two-source conflict example it returns the conflict error
while the module passed by mutable reference has already received the
`required_version` entry and the first provider requirement. -/
theorem c9_not_atomic_on_error :
    (load_module_from_file exampleConflictFile (Module.new "")).2 =
      some (.multipleSourcesForProvider "mycloud" "mycorp/mycloud1"
        "mycorp/mycloud2") ∧
    (load_module_from_file exampleConflictFile (Module.new "")).1.required_core =
      ["1.0.0"] ∧
    (load_module_from_file exampleConflictFile
        (Module.new "")).1.required_providers =
      [("mycloud", { source := "mycorp/mycloud1",
                     version_constraints := ["~> 1.0"],
                     configuration_aliases := [] })] ∧
    (load_module_from_file exampleConflictFile (Module.new "")).1 ≠
      Module.new "" := by
  refine ⟨by decide, by decide, by decide, by decide⟩

/-- C7 (confirmed): file discovery outputs all primary files in
directory-enumeration order followed by all override files in enumeration
order, where an entry is kept exactly when it is not a sub-directory and
has a decodable extension that does not start with `.` or `#` nor end with
`~` or `#`, and is an override exactly when its stem equals `override` or
ends with `_override`. -/
theorem c7_discovery_order (entries : List DirEntry) :
    get_files_in_dir entries = discoverSpec entries := by
  rw [get_files_in_dir, discoverSpec, getFilesGo_spec]
  simp

/-- C8 (confirmed): a parsed document whose top-level blocks all have
identifiers other than `terraform` leaves the module unchanged and returns
success; and inside a terraform block, attributes other than
`required_version` and nested blocks other than `required_providers` have
no effect on the module. -/
theorem c8_ignores_unrecognised (file : Body) (body : Body) (m : Module)
    (hTop : ∀ ib ∈ blocksOf file, ib.1 ≠ "terraform")
    (hAttr : ∀ kv ∈ attributesOf body, kv.1 ≠ "required_version")
    (hInner : ∀ ib ∈ blocksOf body, ib.1 ≠ "required_providers") :
    load_module_from_file file m = (m, none) ∧
    handle_terraform_block body m = (m, none) := by
  constructor
  · exact handleTopBlocks_skip (blocksOf file) m hTop
  · rw [handle_terraform_block, requiredVersionsOf_eq_nil body hAttr]
    have hm : ({ m with required_core := m.required_core ++ [] } : Module) = m := by
      cases m
      simp
    rw [hm]
    exact handleInnerBlocks_skip (blocksOf body) m hInner

/-- C8, witness: a file holding only a `provider` block and a terraform
body holding only a `foo` attribute and a `locals` block. -/
theorem c8_ignores_unrecognised_witness :
    (∀ ib ∈ blocksOf [Structure.block "provider" []], ib.1 ≠ "terraform") ∧
    (∀ kv ∈ attributesOf [Structure.attribute "foo" (.str "1"),
        Structure.block "locals" []], kv.1 ≠ "required_version") ∧
    (∀ ib ∈ blocksOf [Structure.attribute "foo" (.str "1"),
        Structure.block "locals" []], ib.1 ≠ "required_providers") ∧
    (load_module_from_file [Structure.block "provider" []] (Module.new "") =
        (Module.new "", none) ∧
      handle_terraform_block [Structure.attribute "foo" (.str "1"),
          Structure.block "locals" []] (Module.new "") =
        (Module.new "", none)) :=
  ⟨(by decide), (by decide), (by decide),
   c8_ignores_unrecognised [Structure.block "provider" []]
     [Structure.attribute "foo" (.str "1"), Structure.block "locals" []]
     (Module.new "") (by decide) (by decide) (by decide)⟩

/-- C10 (confirmed): every provider requirement stored in a module returned
by the directory-level load has an empty `configuration_aliases` sequence,
and the fresh constraint list contributed by one object-shaped declaration
has length at most one. -/
theorem c10_alias_free_and_single_version :
    (∀ (path : String) (entries : List DirEntry) (m : Module),
      load_module path entries = .ok m →
      ∀ kv ∈ m.required_providers, kv.2.configuration_aliases = []) ∧
    (∀ (e : Expression) (req : ProviderRequirement),
      extractProviderReq e = some req →
      req.version_constraints.length ≤ 1) := by
  constructor
  · intro path entries m h kv hkv
    have hstart : AliasFree (Module.new path) := by
      intro p hp
      simp [Module.new] at hp
    exact loadFiles_aliasFree _ _ _ h hstart kv hkv
  · intro e req h
    exact (extractProviderReq_shape h).2

/-- C10, witness: the theorem applied to a one-file directory that stores a
provider requirement, and to a concrete object declaration. -/
theorem c10_alias_free_and_single_version_witness :
    (load_module ""
        [mkParsedEntry "a.tf" (providerFile "mycloud" "mycorp/mycloud" "~> 1.0")] =
      .ok { path := "", required_core := [],
            required_providers :=
              [("mycloud", { source := "mycorp/mycloud",
                             version_constraints := ["~> 1.0"],
                             configuration_aliases := [] })] }) ∧
    (∀ kv ∈ ({ path := "", required_core := [],
               required_providers :=
                 [("mycloud", { source := "mycorp/mycloud",
                                version_constraints := ["~> 1.0"],
                                configuration_aliases := [] })] } :
               Module).required_providers,
        kv.2.configuration_aliases = []) ∧
    (extractProviderReq
        (.object (srcVerEntries "mycorp/mycloud" "~> 1.0")) =
      some { source := "mycorp/mycloud", version_constraints := ["~> 1.0"],
             configuration_aliases := [] }) ∧
    ({ source := "mycorp/mycloud", version_constraints := ["~> 1.0"],
       configuration_aliases := [] } :
      ProviderRequirement).version_constraints.length ≤ 1 :=
  ⟨by decide,
   c10_alias_free_and_single_version.1 ""
     [mkParsedEntry "a.tf" (providerFile "mycloud" "mycorp/mycloud" "~> 1.0")]
     _ (by decide),
   by decide,
   c10_alias_free_and_single_version.2
     (.object (srcVerEntries "mycorp/mycloud" "~> 1.0")) _ (by decide)⟩

/-- C2, counterexample: a directory holding a well-formed file and a file
whose text does not parse aborts the load with the parse error — the bad
file is not skipped and no `Module` is returned, and `load_module` has no
strictness parameter that could change this. -/
theorem c2_counterexample :
    load_module "" exampleBadDir = .error (.hclError "unexpected token") := by
  decide

/-- C2, amended: the directory-level load takes no strictness flag; whenever
any discovered file fails to read or parse, the load aborts with an error
and no `Module` is returned (unconditionally strict behavior). -/
theorem c2_always_strict (path : String) (entries : List DirEntry)
    (h : ∃ f ∈ get_files_in_dir entries, f.content.isParsed = false) :
    ∃ e, load_module path entries = .error e :=
  loadFiles_error_of_bad _ _ h

/-- C2, witness: the amended theorem applied to a directory with one good
and one unparsable file. -/
theorem c2_always_strict_witness :
    (∃ f ∈ get_files_in_dir exampleBadDir, f.content.isParsed = false) ∧
    ∃ e, load_module "" exampleBadDir = .error e :=
  have hmem : badEntry ∈ get_files_in_dir exampleBadDir := by
    rw [get_files_in_dir, getFilesGo_spec]
    have hkeep : keepEntry badEntry = true := by decide
    have hov : isOverride badEntry = false := by decide
    simp [List.mem_append, List.mem_filter, exampleBadDir, hkeep, hov]
  have hbad : badEntry.content.isParsed = false := by decide
  ⟨⟨badEntry, hmem, hbad⟩,
   c2_always_strict "" exampleBadDir ⟨badEntry, hmem, hbad⟩⟩

/-- C6, counterexample: a directory containing only well-formed (parsable)
files can still fail to return any `Module`: two parsable files declaring
`mycloud` with differing non-empty sources make the load return the
conflict error, so the claim's unconditional "returns a Module whose ..."
fails. -/
theorem c6_counterexample :
    (∀ f ∈ exampleConflictDir, f.content.isParsed = true) ∧
    load_module "" exampleConflictDir =
      .error (.parse (.multipleSourcesForProvider "mycloud" "mycorp/mycloud1"
        "mycorp/mycloud2")) :=
  ⟨fun f hf => by
    rcases List.mem_cons.1 hf with h | h
    · rw [h]; decide
    · rw [List.mem_singleton.1 h]; decide,
   by decide⟩

/-- C6, amended: whenever the directory-level load returns a `Module`, its
`required_core` is exactly the concatenation, in file-processing order then
within-file declaration order, of the quote-stripped `required_version`
attribute texts of all terraform blocks of all processed files, duplicates
kept. -/
theorem c6_required_core (path : String) (entries : List DirEntry) (m : Module)
    (h : load_module path entries = .ok m) :
    m.required_core =
      (get_files_in_dir entries).flatMap fun f => contentVersions f.content := by
  rw [load_module] at h
  have hc := loadFiles_core _ _ _ h
  simpa [Module.new] using hc.1

/-- C6, witness: two copies of the same well-formed file, whose duplicate
version constraints are both kept, in file order. -/
theorem c6_required_core_witness :
    (load_module "" exampleDupDir =
      .ok { path := "", required_core := ["1.0.0", "1.0.0"],
            required_providers := [] }) ∧
    ({ path := "", required_core := ["1.0.0", "1.0.0"],
       required_providers := [] } : Module).required_core =
      (get_files_in_dir exampleDupDir).flatMap
        fun f => contentVersions f.content :=
  ⟨by decide, c6_required_core "" exampleDupDir _ (by decide)⟩

/-- C4 (confirmed): merging a declaration whose extracted source and the
existing entry's source are both non-empty and differ fails with the
conflict error carrying the provider name, the existing source, and the new
source; and an error raised while processing any discovered file makes the
directory-level load return that error, so no partial `Module` escapes. -/
theorem c4_conflicting_sources :
    (∀ (name : String) (e : Expression) (req existing : ProviderRequirement)
        (m : Module) (rest : List (String × Expression)),
      lookupProvider m.required_providers name = some existing →
      extractProviderReq e = some req →
      req.source ≠ "" → existing.source ≠ "" → existing.source ≠ req.source →
      handleProviderAttrs ((name, e) :: rest) m =
        (m, some (.multipleSourcesForProvider name existing.source
          req.source))) ∧
    (∀ (path : String) (entries pre post : List DirEntry) (f : DirEntry)
        (body : Body) (m m' : Module) (err : ParseError),
      get_files_in_dir entries = pre ++ f :: post →
      loadFiles pre (Module.new path) = .ok m →
      f.content = .parsed body →
      load_module_from_file body m = (m', some err) →
      load_module path entries = .error (.parse err)) := by
  constructor
  · intro name e req existing m rest hL hE h1 h2 h3
    simp only [handleProviderAttrs, hE, hL]
    rw [if_pos ⟨h1, h2, h3⟩]
  · intro path entries pre post f body m m' err hdisc hpre hc hB
    rw [load_module, hdisc, loadFiles_append]
    simp only [hpre]
    rw [loadFiles]
    simp only [hc, hB]

/-- C4, witness: the theorem applied to the two-file conflicting directory:
the merge step yields the conflict error and the directory-level load
returns it. -/
theorem c4_conflicting_sources_witness :
    (lookupProvider
        ({ path := "", required_core := [],
           required_providers :=
             [("mycloud", { source := "mycorp/mycloud1",
                            version_constraints := ["~> 1.0"],
                            configuration_aliases := [] })] } :
          Module).required_providers "mycloud" =
      some { source := "mycorp/mycloud1", version_constraints := ["~> 1.0"],
             configuration_aliases := [] }) ∧
    (extractProviderReq
        (.object (srcVerEntries "mycorp/mycloud2" "~> 2.0")) =
      some { source := "mycorp/mycloud2", version_constraints := ["~> 2.0"],
             configuration_aliases := [] }) ∧
    (handleProviderAttrs
        [("mycloud", Expression.object (srcVerEntries "mycorp/mycloud2" "~> 2.0"))]
        { path := "", required_core := [],
          required_providers :=
            [("mycloud", { source := "mycorp/mycloud1",
                           version_constraints := ["~> 1.0"],
                           configuration_aliases := [] })] } =
      ({ path := "", required_core := [],
         required_providers :=
           [("mycloud", { source := "mycorp/mycloud1",
                          version_constraints := ["~> 1.0"],
                          configuration_aliases := [] })] },
       some (.multipleSourcesForProvider "mycloud" "mycorp/mycloud1"
         "mycorp/mycloud2"))) ∧
    (get_files_in_dir exampleConflictDir =
      [mkParsedEntry "a.tf" (providerFile "mycloud" "mycorp/mycloud1" "~> 1.0")] ++
        mkParsedEntry "b.tf" (providerFile "mycloud" "mycorp/mycloud2" "~> 2.0") :: []) ∧
    (loadFiles [mkParsedEntry "a.tf"
        (providerFile "mycloud" "mycorp/mycloud1" "~> 1.0")] (Module.new "") =
      .ok { path := "", required_core := [],
            required_providers :=
              [("mycloud", { source := "mycorp/mycloud1",
                             version_constraints := ["~> 1.0"],
                             configuration_aliases := [] })] }) ∧
    load_module "" exampleConflictDir =
      .error (.parse (.multipleSourcesForProvider "mycloud" "mycorp/mycloud1"
        "mycorp/mycloud2")) :=
  ⟨by decide, by decide,
   c4_conflicting_sources.1 "mycloud"
     (Expression.object (srcVerEntries "mycorp/mycloud2" "~> 2.0"))
     { source := "mycorp/mycloud2", version_constraints := ["~> 2.0"],
       configuration_aliases := [] }
     { source := "mycorp/mycloud1", version_constraints := ["~> 1.0"],
       configuration_aliases := [] }
     { path := "", required_core := [],
       required_providers :=
         [("mycloud", { source := "mycorp/mycloud1",
                        version_constraints := ["~> 1.0"],
                        configuration_aliases := [] })] }
     [] (by decide) (by decide) (by decide) (by decide) (by decide),
   rfl, by decide,
   c4_conflicting_sources.2 "" exampleConflictDir
     [mkParsedEntry "a.tf" (providerFile "mycloud" "mycorp/mycloud1" "~> 1.0")]
     []
     (mkParsedEntry "b.tf" (providerFile "mycloud" "mycorp/mycloud2" "~> 2.0"))
     (providerFile "mycloud" "mycorp/mycloud2" "~> 2.0")
     { path := "", required_core := [],
       required_providers :=
         [("mycloud", { source := "mycorp/mycloud1",
                        version_constraints := ["~> 1.0"],
                        configuration_aliases := [] })] }
     { path := "", required_core := [],
       required_providers :=
         [("mycloud", { source := "mycorp/mycloud1",
                        version_constraints := ["~> 1.0"],
                        configuration_aliases := [] })] }
     (.multipleSourcesForProvider "mycloud" "mycorp/mycloud1" "mycorp/mycloud2")
     rfl (by decide) rfl (by decide)⟩

/-- C5 (confirmed): declaring provider `mycloud` in two processed files with
the same non-empty (quote-free) source and two different versions yields a
single entry whose `version_constraints` holds both version strings in
file-processing order. -/
theorem c5_same_source_merges_versions (path src v1 v2 : String)
    (hsrc : src ≠ "") (hv : v1 ≠ v2)
    (hqs : stripQuotes src = src) (hq1 : stripQuotes v1 = v1)
    (hq2 : stripQuotes v2 = v2) :
    load_module path
        [mkParsedEntry "a.tf" (providerFile "mycloud" src v1),
         mkParsedEntry "b.tf" (providerFile "mycloud" src v2)] =
      .ok { path := path, required_core := [],
            required_providers :=
              [("mycloud", { source := src, version_constraints := [v1, v2],
                             configuration_aliases := [] })] } := by
  have hE1 : extractProviderReq (Expression.object (srcVerEntries src v1)) =
      some { source := src, version_constraints := [v1],
             configuration_aliases := [] } := by
    simp [extractProviderReq, srcVerEntries, objectGet, exprToString,
      ProviderRequirement.default, stripQuotes_quoted, hqs, hq1]
  have hE2 : extractProviderReq (Expression.object (srcVerEntries src v2)) =
      some { source := src, version_constraints := [v2],
             configuration_aliases := [] } := by
    simp [extractProviderReq, srcVerEntries, objectGet, exprToString,
      ProviderRequirement.default, stripQuotes_quoted, hqs, hq2]
  have hf1 : load_module_from_file (providerFile "mycloud" src v1)
      (Module.new path) =
      ({ path := path, required_core := [],
         required_providers :=
           [("mycloud", { source := src, version_constraints := [v1],
                          configuration_aliases := [] })] }, none) := by
    simp [load_module_from_file, providerFile, blocksOf, attributesOf,
      handleTopBlocks, handle_terraform_block, requiredVersionsOf,
      handleInnerBlocks, handle_required_providers_block, handleProviderAttrs,
      hE1, lookupProvider, Module.new]
  have hf2 : load_module_from_file (providerFile "mycloud" src v2)
      ({ path := path, required_core := [],
         required_providers :=
           [("mycloud", { source := src, version_constraints := [v1],
                          configuration_aliases := [] })] } : Module) =
      ({ path := path, required_core := [],
         required_providers :=
           [("mycloud", { source := src, version_constraints := [v1, v2],
                          configuration_aliases := [] })] }, none) := by
    simp [load_module_from_file, providerFile, blocksOf, attributesOf,
      handleTopBlocks, handle_terraform_block, requiredVersionsOf,
      handleInnerBlocks, handle_required_providers_block, handleProviderAttrs,
      hE2, lookupProvider, updateProvider]
  have hdisc : get_files_in_dir
      [mkParsedEntry "a.tf" (providerFile "mycloud" src v1),
       mkParsedEntry "b.tf" (providerFile "mycloud" src v2)] =
      [mkParsedEntry "a.tf" (providerFile "mycloud" src v1),
       mkParsedEntry "b.tf" (providerFile "mycloud" src v2)] := rfl
  rw [load_module, hdisc]
  simp only [loadFiles, mkParsedEntry, hf1, hf2]

/-- C5, witness: the theorem applied to concrete sources and versions. -/
theorem c5_same_source_merges_versions_witness :
    ("mycorp/mycloud" : String) ≠ "" ∧ ("~> 1.0" : String) ≠ "~> 2.0" ∧
    stripQuotes "mycorp/mycloud" = "mycorp/mycloud" ∧
    stripQuotes "~> 1.0" = "~> 1.0" ∧ stripQuotes "~> 2.0" = "~> 2.0" ∧
    load_module "/m"
        [mkParsedEntry "a.tf" (providerFile "mycloud" "mycorp/mycloud" "~> 1.0"),
         mkParsedEntry "b.tf" (providerFile "mycloud" "mycorp/mycloud" "~> 2.0")] =
      .ok { path := "/m", required_core := [],
            required_providers :=
              [("mycloud", { source := "mycorp/mycloud",
                             version_constraints := ["~> 1.0", "~> 2.0"],
                             configuration_aliases := [] })] } :=
  ⟨by decide, by decide, by decide, by decide, by decide,
   c5_same_source_merges_versions "/m" "mycorp/mycloud" "~> 1.0" "~> 2.0"
     (by decide) (by decide) (by decide) (by decide) (by decide)⟩

end Tfconfig
